import Mathlib

/-!
Verification of the SweepTogether bot runner
(`src/integration-tests/bots_runner.py`).

The Python program is an event-driven Socket.IO client.  We give a shallow
embedding:

* Python dictionaries that the code reads with `.get` are structures whose
  fields are `Option`-valued, so an absent key is `none`; dictionary
  truthiness (`if response:` / `if not board or not config:`) is modelled
  explicitly.
* Python exceptions (`IndexError` from `board[r][c]`, `KeyError` from
  `response['gameId']`) are modelled with `Except PyError`.
* `random.choice` / `random.randint` are modelled by oracle arguments: an
  arbitrary index `k : Nat` (the choice is `unrevealed[k % len]`, so every
  element of the list is a possible choice) and an arbitrary stream
  `xy : Nat → Nat × Nat` whose components are reduced `% 8`, matching the
  contract of `random.randint(0, 7)`.
* Handlers return the updated bot state together with the list of outbound
  emissions (`Emit`); `print` logging and the transport-level
  connect/disconnect calls emit no game events and are not modelled.
-/

deriving instance DecidableEq for Except

/-- Python exceptions that the bot code can raise. -/
inductive PyError where
  | indexError
  | keyError
  deriving DecidableEq

/-- A cell record of the board snapshot: a dictionary read with
`cell.get('revealed', False)`, so the `revealed` key is optional. -/
structure Cell where
  revealed? : Option Bool
  deriving DecidableEq

/-- `board[r][c].get('revealed', False)`. -/
def Cell.isRevealed (cell : Cell) : Bool :=
  cell.revealed?.getD false

/-- The `boardConfig` dictionary: the code reads `rows` and `cols` with
default 8; `hasOtherKeys` records whether the dictionary holds any further
keys, which matters only for its truthiness. -/
structure BoardConfig where
  rows? : Option Nat
  cols? : Option Nat
  hasOtherKeys : Bool
  deriving DecidableEq

/-- Python truthiness of the `boardConfig` dictionary: non-empty. -/
def BoardConfig.truthy (config : BoardConfig) : Bool :=
  config.rows?.isSome || config.cols?.isSome || config.hasOtherKeys

/-- The `gameState` event payload, read with `game_state.get('boardState')`
and `game_state.get('boardConfig')`. -/
structure GameState where
  boardState : Option (List (List Cell))
  boardConfig : Option BoardConfig
  deriving DecidableEq

/-- Truthiness of `game_state.get('boardState')`: present and non-empty. -/
def truthyBoard : Option (List (List Cell)) → Bool
  | none => false
  | some board => !board.isEmpty

/-- Truthiness of `game_state.get('boardConfig')`: present and non-empty. -/
def truthyConfig : Option BoardConfig → Bool
  | none => false
  | some config => config.truthy

/-- A `gameCreated` / `gameJoined` response dictionary.  The handlers read
`response['gameId']` resp. `response['playerId']` without defaults, so an
absent key raises `KeyError`; `hasOtherKeys` again only feeds truthiness. -/
structure Resp where
  gameId? : Option String
  playerId? : Option String
  hasOtherKeys : Bool
  deriving DecidableEq

/-- Python truthiness of a response dictionary: non-empty (a `None` or `{}`
response is falsy). -/
def Resp.truthy (r : Resp) : Bool :=
  r.gameId?.isSome || r.playerId?.isSome || r.hasOtherKeys

/-- Outbound events emitted by the bot (`self.sio.emit(...)` calls). -/
inductive Emit where
  /-- `emit('createGame', config)` with `config = dict(username)`. -/
  | createGame (username : String)
  /-- `emit('joinGame', dict(gameId, username))`. -/
  | joinGame (gameId : String) (username : String)
  /-- `emit('revealTile', dict(gameId, playerId, x, y))`, the burst form of
  `play_game`; `gameId` is `Optional[str]` in the bot state. -/
  | revealTileBurst (gameId : Option String) (playerId : String) (x y : Nat)
  /-- `emit('reveal_tile', dict(position))` with `position = dict(x, y)`,
  the state-driven form of `make_random_move`. -/
  | reveal_tile (x y : Nat)
  deriving DecidableEq

/-- The mutable fields of a `BotPlayer` object. -/
structure BotPlayer where
  bot_id : Nat
  game_id : Option String
  player_id : Option String
  username : String
  connected : Bool
  game_over : Bool
  deriving DecidableEq

/-- The bot state right after `__init__` and a successful `connect` (which
sets `connected = True` before any game traffic). -/
def initBot (botId : Nat) : BotPlayer :=
  { bot_id := botId
    game_id := none
    player_id := none
    username := "Bot_" ++ toString botId
    connected := true
    game_over := false }

/-- The locally generated placeholder game id
`f"testgame_XXX_YYY"` built from the bot id and `int(time.time())`. -/
def placeholderId (botId now : Nat) : String :=
  "testgame_" ++ toString botId ++ "_" ++ toString now

/-- `board[r][c]`: Python list indexing, raising `IndexError` when either
index is out of range. -/
def cellLookup (board : List (List Cell)) (r c : Nat) : Except PyError Cell :=
  match board.get? r with
  | none => .error .indexError
  | some row =>
    match row.get? c with
    | none => .error .indexError
    | some cell => .ok cell

/-- The inner loop of the list comprehension in `make_random_move`: for a
fixed row index `r`, visit the column indices `l` in order and keep the
coordinates of cells that are not marked revealed; the first out-of-range
access aborts with `IndexError`. -/
def scanRow (board : List (List Cell)) (r : Nat) :
    List Nat → Except PyError (List (Nat × Nat))
  | [] => .ok []
  | c :: cs => do
    let cell ← cellLookup board r c
    let rest ← scanRow board r cs
    pure (if cell.isRevealed then rest else (r, c) :: rest)

/-- The outer loop of the list comprehension: visit the row indices in
order, concatenating the surviving coordinates. -/
def scanRows (board : List (List Cell)) (cols : Nat) :
    List Nat → Except PyError (List (Nat × Nat))
  | [] => .ok []
  | r :: rs => do
    let here ← scanRow board r (List.range cols)
    let rest ← scanRows board cols rs
    pure (here ++ rest)

/-- `[(r, c) for r in range(rows) for c in range(cols)
      if not board[r][c].get('revealed', False)]`. -/
def unrevealedCells (board : List (List Cell)) (rows cols : Nat) :
    Except PyError (List (Nat × Nat)) :=
  scanRows board cols (List.range rows)

/-- `BotPlayer.make_random_move(game_state)`.  `k` is the oracle for
`random.choice`: the chosen element is `unrevealed[k % len(unrevealed)]`.
Returns the list of emissions (empty or one `reveal_tile`). -/
def make_random_move (k : Nat) (gs : GameState) : Except PyError (List Emit) :=
  match gs.boardState, gs.boardConfig with
  | some board, some config =>
    if board.isEmpty || !config.truthy then .ok []
    else do
      let rows := config.rows?.getD 8
      let cols := config.cols?.getD 8
      let unrevealed ← unrevealedCells board rows cols
      match unrevealed with
      | [] => pure []
      | u :: _ =>
        let rc := unrevealed.getD (k % unrevealed.length) u
        pure [Emit.reveal_tile rc.2 rc.1]
  | _, _ => .ok []

/-- `BotPlayer.play_game()`: ten burst `revealTile` emissions; `xy` is the
oracle for the two `random.randint(0, 7)` draws of iteration `i`. -/
def play_game (xy : Nat → Nat × Nat) (bot : BotPlayer) : List Emit :=
  (List.range 10).map fun i =>
    Emit.revealTileBurst bot.game_id bot.username ((xy i).1 % 8) ((xy i).2 % 8)

/-- `BotPlayer.create_and_join_game()`: store the placeholder game id and
emit a single `createGame` request. -/
def create_and_join_game (now : Nat) (bot : BotPlayer) : BotPlayer × List Emit :=
  ({ bot with game_id := some (placeholderId bot.bot_id now) },
   [Emit.createGame bot.username])

/-- `BotPlayer.on_game_created(response)`. -/
def on_game_created (bot : BotPlayer) (r : Resp) :
    Except PyError (BotPlayer × List Emit) :=
  if r.truthy then
    match r.gameId? with
    | none => .error .keyError
    | some gid =>
      .ok ({ bot with game_id := some gid }, [Emit.joinGame gid bot.username])
  else .ok (bot, [])

/-- `BotPlayer.on_game_joined(response)`. -/
def on_game_joined (xy : Nat → Nat × Nat) (bot : BotPlayer) (r : Resp) :
    Except PyError (BotPlayer × List Emit) :=
  if r.truthy then
    match r.playerId? with
    | none => .error .keyError
    | some pid =>
      let bot' := { bot with player_id := some pid }
      .ok (bot', play_game xy bot')
  else .ok (bot, [])

/-- `BotPlayer.on_game_state(data)`. -/
def on_game_state (k : Nat) (bot : BotPlayer) (data : GameState) :
    Except PyError (BotPlayer × List Emit) :=
  if !bot.game_over then do
    let out ← make_random_move k data
    pure (bot, out)
  else .ok (bot, [])

/-- `BotPlayer.on_game_over(data)`: set the terminal flag (the subsequent
`sio.disconnect()` is a transport action, not a game emission). -/
def on_game_over (bot : BotPlayer) : BotPlayer × List Emit :=
  ({ bot with game_over := true }, [])

/-- One inbound event, tagged with the oracle its handler consumes. -/
inductive InEvent where
  | gameState (k : Nat) (data : GameState)
  | gameOver
  | gameCreated (r : Resp)
  | gameJoined (r : Resp)
  deriving DecidableEq

/-- Dispatch of one inbound event to its registered handler. -/
def step (xy : Nat → Nat × Nat) (bot : BotPlayer) :
    InEvent → Except PyError (BotPlayer × List Emit)
  | .gameState k data => on_game_state k bot data
  | .gameOver => .ok (on_game_over bot)
  | .gameCreated r => on_game_created bot r
  | .gameJoined r => on_game_joined xy bot r

/-- Process a sequence of inbound events (the bot's handlers run
sequentially on one cooperative scheduler), accumulating emissions. -/
def handleEvents (xy : Nat → Nat × Nat) :
    BotPlayer → List InEvent → Except PyError (BotPlayer × List Emit)
  | bot, [] => .ok (bot, [])
  | bot, e :: es => do
    let out₁ ← step xy bot e
    let out₂ ← handleEvents xy out₁.1 es
    pure (out₂.1, out₁.2 ++ out₂.2)

/-- One full bot run: after connecting, `create_and_join_game` runs once and
then `sio.wait()` lets the inbound events drive everything else. -/
def runBot (xy : Nat → Nat × Nat) (now botId : Nat) (events : List InEvent) :
    Except PyError (BotPlayer × List Emit) := do
  let start := create_and_join_game now (initBot botId)
  let rest ← handleEvents xy start.1 events
  pure (rest.1, start.2 ++ rest.2)

/-- Executable check that every coordinate in the config-declared bounds can
be looked up without `IndexError` (the board covers the bounds). -/
def coversBounds (board : List (List Cell)) (rows cols : Nat) : Bool :=
  (List.range rows).all fun r => (List.range cols).all fun c =>
    match cellLookup board r c with
    | .ok _ => true
    | .error _ => false

/-- Executable check that some cell within the config-declared bounds exists
and is not marked revealed. -/
def existsUnrevealed (board : List (List Cell)) (rows cols : Nat) : Bool :=
  (List.range rows).any fun r => (List.range cols).any fun c =>
    match cellLookup board r c with
    | .ok cell => !cell.isRevealed
    | .error _ => false

/-- Executable check that every cell within the config-declared bounds
exists and is marked revealed. -/
def allRevealedWithin (board : List (List Cell)) (rows cols : Nat) : Bool :=
  (List.range rows).all fun r => (List.range cols).all fun c =>
    match cellLookup board r c with
    | .ok cell => cell.isRevealed
    | .error _ => false

/-- Executable check that the iteration of `make_random_move` runs off the
board: some visited row index is missing from `boardState` or its row is
shorter than `cols` (with at least one column visited). -/
def dimsShort (board : List (List Cell)) (rows cols : Nat) : Bool :=
  decide (0 < cols) && (List.range rows).any fun r =>
    match board.get? r with
    | none => true
    | some row => decide (row.length < cols)

/-- Recognizer for `createGame` emissions. -/
def Emit.isCreateGame : Emit → Bool
  | .createGame _ => true
  | _ => false

/-- Recognizer for burst `revealTile` emissions. -/
def Emit.isBurst : Emit → Bool
  | .revealTileBurst _ _ _ _ => true
  | _ => false

/-- Recognizer for inbound `gameCreated` events. -/
def InEvent.isGameCreated : InEvent → Bool
  | .gameCreated _ => true
  | _ => false

/-- `Except.bind` on a success, specialised to `PyError`. -/
@[simp] theorem okBind {α β : Type} (a : α) (f : α → Except PyError β) :
    (Except.ok a >>= f) = f a := rfl

/-- `Except.bind` on a failure, specialised to `PyError`. -/
@[simp] theorem errorBind {α β : Type} (e : PyError) (f : α → Except PyError β) :
    ((Except.error e : Except PyError α) >>= f) = Except.error e := rfl

/-- `pure` on `Except PyError` is `Except.ok`. -/
@[simp] theorem pureEqOk {α : Type} (a : α) :
    (pure a : Except PyError α) = Except.ok a := rfl

/-- The only error `cellLookup` raises is `IndexError`. -/
theorem cellLookup_error_eq (board : List (List Cell)) (r c : Nat) (e : PyError)
    (h : cellLookup board r c = Except.error e) : e = PyError.indexError := by
  unfold cellLookup at h
  split at h
  · injection h with h2
    exact h2.symm
  · split at h
    · injection h with h2
      exact h2.symm
    · exact absurd h (by simp)

/-- Characterisation of a successful inner scan: under coverage of the
visited column indices, `scanRow` succeeds, every collected coordinate is a
visited unrevealed cell, and every visited unrevealed cell is collected. -/
theorem scanRow_ok (board : List (List Cell)) (r : Nat) (l : List Nat)
    (hcov : ∀ c ∈ l, ∃ cell, cellLookup board r c = Except.ok cell) :
    ∃ out, scanRow board r l = Except.ok out
      ∧ (∀ p ∈ out, ∃ c ∈ l, p = (r, c)
          ∧ ∃ cell, cellLookup board r c = Except.ok cell ∧ cell.isRevealed = false)
      ∧ (∀ c ∈ l, ∀ cell, cellLookup board r c = Except.ok cell →
          cell.isRevealed = false → (r, c) ∈ out) := by
  induction l with
  | nil => exact ⟨[], rfl, by simp, by simp⟩
  | cons c cs ih =>
    obtain ⟨cell, hcell⟩ := hcov c (List.mem_cons_self c cs)
    obtain ⟨out, hout, hmem, hcomp⟩ :=
      ih fun c' hc' => hcov c' (List.mem_cons_of_mem _ hc')
    refine ⟨if cell.isRevealed then out else (r, c) :: out, ?_, ?_, ?_⟩
    · simp [scanRow, hcell, hout]
    · intro p hp
      by_cases hrev : cell.isRevealed
      · simp only [if_pos hrev] at hp
        obtain ⟨c', hc', hrest⟩ := hmem p hp
        exact ⟨c', List.mem_cons_of_mem _ hc', hrest⟩
      · simp only [if_neg hrev] at hp
        rcases List.mem_cons.mp hp with rfl | hp
        · exact ⟨c, List.mem_cons_self c cs, rfl, cell, hcell,
            Bool.not_eq_true _ ▸ hrev⟩
        · obtain ⟨c', hc', hrest⟩ := hmem p hp
          exact ⟨c', List.mem_cons_of_mem _ hc', hrest⟩
    · intro c' hc' cell' hcell' hrev'
      rcases List.mem_cons.mp hc' with rfl | hc'
      · have hcc : cell' = cell := by
          rw [hcell'] at hcell
          exact Except.ok.inj hcell
        subst hcc
        simp [hrev']
      · have hmem' := hcomp c' hc' cell' hcell' hrev'
        by_cases hrev : cell.isRevealed <;> simp [hrev, hmem']

/-- Characterisation of a successful outer scan, analogous to
`scanRow_ok` for the visited row indices. -/
theorem scanRows_ok (board : List (List Cell)) (cols : Nat) (rs : List Nat)
    (hcov : ∀ r ∈ rs, ∀ c ∈ List.range cols,
      ∃ cell, cellLookup board r c = Except.ok cell) :
    ∃ out, scanRows board cols rs = Except.ok out
      ∧ (∀ p ∈ out, p.1 ∈ rs ∧ p.2 ∈ List.range cols
          ∧ ∃ cell, cellLookup board p.1 p.2 = Except.ok cell ∧ cell.isRevealed = false)
      ∧ (∀ r ∈ rs, ∀ c ∈ List.range cols, ∀ cell,
          cellLookup board r c = Except.ok cell →
          cell.isRevealed = false → (r, c) ∈ out) := by
  induction rs with
  | nil => exact ⟨[], rfl, by simp, by simp⟩
  | cons r rs ih =>
    obtain ⟨here, hhere, hmem₁, hcomp₁⟩ :=
      scanRow_ok board r (List.range cols) (hcov r (List.mem_cons_self r rs))
    obtain ⟨rest, hrest, hmem₂, hcomp₂⟩ :=
      ih fun r' hr' => hcov r' (List.mem_cons_of_mem _ hr')
    refine ⟨here ++ rest, ?_, ?_, ?_⟩
    · simp [scanRows, hhere, hrest]
    · intro p hp
      rcases List.mem_append.mp hp with hp | hp
      · obtain ⟨c, hc, rfl, hcell⟩ := hmem₁ p hp
        exact ⟨List.mem_cons_self r rs, hc, hcell⟩
      · obtain ⟨h1, h2, h3⟩ := hmem₂ p hp
        exact ⟨List.mem_cons_of_mem _ h1, h2, h3⟩
    · intro r' hr' c hc cell hcell hrev
      rcases List.mem_cons.mp hr' with rfl | hr'
      · exact List.mem_append.mpr (Or.inl (hcomp₁ c hc cell hcell hrev))
      · exact List.mem_append.mpr (Or.inr (hcomp₂ r' hr' c hc cell hcell hrev))

/-- Under coverage of the config bounds, the whole comprehension succeeds
and returns exactly the in-bounds unrevealed coordinates. -/
theorem unrevealedCells_ok (board : List (List Cell)) (rows cols : Nat)
    (hcov : coversBounds board rows cols = true) :
    ∃ out, unrevealedCells board rows cols = Except.ok out
      ∧ (∀ p ∈ out, p.1 < rows ∧ p.2 < cols
          ∧ ∃ cell, cellLookup board p.1 p.2 = Except.ok cell ∧ cell.isRevealed = false)
      ∧ (∀ r c, r < rows → c < cols → ∀ cell,
          cellLookup board r c = Except.ok cell →
          cell.isRevealed = false → (r, c) ∈ out) := by
  have hcov' : ∀ r ∈ List.range rows, ∀ c ∈ List.range cols,
      ∃ cell, cellLookup board r c = Except.ok cell := by
    intro r hr c hc
    have := (List.all_eq_true.mp hcov) r hr
    have := (List.all_eq_true.mp this) c hc
    cases h : cellLookup board r c with
    | ok cell => exact ⟨cell, rfl⟩
    | error e => rw [h] at this; simp at this
  obtain ⟨out, hout, hmem, hcomp⟩ := scanRows_ok board cols (List.range rows) hcov'
  refine ⟨out, hout, ?_, ?_⟩
  · intro p hp
    obtain ⟨h1, h2, h3⟩ := hmem p hp
    exact ⟨List.mem_range.mp h1, List.mem_range.mp h2, h3⟩
  · intro r c hr hc cell hcell hrev
    exact hcomp r (List.mem_range.mpr hr) c (List.mem_range.mpr hc) cell hcell hrev

/-- If some visited column index fails to look up, the inner scan raises
`IndexError`. -/
theorem scanRow_error (board : List (List Cell)) (r : Nat) (l : List Nat)
    (h : ∃ c ∈ l, cellLookup board r c = Except.error PyError.indexError) :
    scanRow board r l = Except.error PyError.indexError := by
  induction l with
  | nil => simp at h
  | cons c cs ih =>
    cases hc : cellLookup board r c with
    | error e =>
      have he := cellLookup_error_eq board r c e hc
      subst he
      simp [scanRow, hc]
    | ok cell =>
      obtain ⟨c', hc', herr⟩ := h
      rcases List.mem_cons.mp hc' with rfl | hc'
      · rw [hc] at herr
        exact absurd herr (by simp)
      · have hrec := ih ⟨c', hc', herr⟩
        simp [scanRow, hc, hrec]

/-- The only error the inner scan raises is `IndexError`. -/
theorem scanRow_error_eq (board : List (List Cell)) (r : Nat) (l : List Nat)
    (e : PyError) (h : scanRow board r l = Except.error e) :
    e = PyError.indexError := by
  induction l with
  | nil => simp [scanRow] at h
  | cons c cs ih =>
    cases hc : cellLookup board r c with
    | error e' =>
      simp only [scanRow, hc, errorBind] at h
      injection h with h2
      exact h2 ▸ cellLookup_error_eq board r c e' hc
    | ok cell =>
      simp only [scanRow, hc, okBind] at h
      cases hs : scanRow board r cs with
      | error e'' =>
        rw [hs] at h
        simp only [errorBind] at h
        injection h with h2
        rw [h2] at hs
        exact ih hs
      | ok out =>
        rw [hs] at h
        simp at h

/-- If some visited row's scan raises `IndexError`, the outer scan does. -/
theorem scanRows_error (board : List (List Cell)) (cols : Nat) (rs : List Nat)
    (h : ∃ r ∈ rs, scanRow board r (List.range cols) = Except.error PyError.indexError) :
    scanRows board cols rs = Except.error PyError.indexError := by
  induction rs with
  | nil => simp at h
  | cons r rs ih =>
    cases hr : scanRow board r (List.range cols) with
    | error e =>
      have he := scanRow_error_eq board r (List.range cols) e hr
      subst he
      simp [scanRows, hr]
    | ok out =>
      obtain ⟨r', hr', herr⟩ := h
      rcases List.mem_cons.mp hr' with rfl | hr'
      · rw [hr] at herr
        exact absurd herr (by simp)
      · have hrec := ih ⟨r', hr', herr⟩
        simp [scanRows, hr, hrec]

/-- If the iteration runs off the board, the comprehension raises
`IndexError`. -/
theorem unrevealedCells_error (board : List (List Cell)) (rows cols : Nat)
    (h : dimsShort board rows cols = true) :
    unrevealedCells board rows cols = Except.error PyError.indexError := by
  unfold dimsShort at h
  obtain ⟨hcols, hany⟩ := Bool.and_eq_true_iff.mp h
  have hcols' : 0 < cols := of_decide_eq_true hcols
  obtain ⟨r, hr, hbad⟩ := List.any_eq_true.mp hany
  apply scanRows_error
  refine ⟨r, hr, scanRow_error board r (List.range cols) ?_⟩
  cases hget : board.get? r with
  | none =>
    refine ⟨0, List.mem_range.mpr hcols', ?_⟩
    unfold cellLookup
    rw [hget]
  | some row =>
    rw [hget] at hbad
    have hlen : row.length < cols := of_decide_eq_true hbad
    refine ⟨row.length, List.mem_range.mpr hlen, ?_⟩
    have hget' : board[r]? = some row := by
      simpa [List.get?_eq_getElem?] using hget
    have hnone : row[row.length]? = none := by
      simp
    simp [cellLookup, hget', hnone]

/-- Evaluation of `make_random_move` once the comprehension's result is
known: the emission is empty for an empty unrevealed list and otherwise the
single `reveal_tile` at the chosen coordinate. -/
theorem make_random_move_eval (k : Nat) (board : List (List Cell))
    (config : BoardConfig) (out : List (Nat × Nat))
    (hb : board.isEmpty = false) (hc : config.truthy = true)
    (hout : unrevealedCells board (config.rows?.getD 8) (config.cols?.getD 8)
      = Except.ok out) :
    make_random_move k ⟨some board, some config⟩ =
      Except.ok (match out with
        | [] => []
        | u :: _ => [Emit.reveal_tile (out.getD (k % out.length) u).2
                      (out.getD (k % out.length) u).1]) := by
  cases out with
  | nil => simp [make_random_move, hb, hc, hout]
  | cons u us => simp [make_random_move, hb, hc, hout]

/-- Any successful `make_random_move` emits nothing or one `reveal_tile`. -/
theorem make_random_move_shape (k : Nat) (gs : GameState) (out : List Emit)
    (h : make_random_move k gs = Except.ok out) :
    out = [] ∨ ∃ x y, out = [Emit.reveal_tile x y] := by
  obtain ⟨bs, bc⟩ := gs
  cases bs with
  | none => exact Or.inl (Except.ok.inj h).symm
  | some board =>
    cases bc with
    | none => exact Or.inl (Except.ok.inj h).symm
    | some config =>
      simp only [make_random_move] at h
      split at h
      · exact Or.inl (Except.ok.inj h).symm
      · cases hu : unrevealedCells board (config.rows?.getD 8) (config.cols?.getD 8) with
        | error e => rw [hu] at h; simp at h
        | ok unrev =>
          rw [hu] at h
          simp only [okBind] at h
          cases unrev with
          | nil =>
            simp only [pureEqOk] at h
            exact Or.inl (Except.ok.inj h).symm
          | cons u us =>
            simp only [pureEqOk] at h
            exact Or.inr ⟨_, _, (Except.ok.inj h).symm⟩

/-- Every emission of `play_game` is a burst `revealTile` addressed by the
bot's current game id and its username, with both coordinates below 8. -/
theorem play_game_mem (xy : Nat → Nat × Nat) (bot : BotPlayer) (e : Emit)
    (he : e ∈ play_game xy bot) :
    ∃ x y, e = Emit.revealTileBurst bot.game_id bot.username x y
      ∧ x < 8 ∧ y < 8 := by
  simp only [play_game, List.mem_map, List.mem_range] at he
  obtain ⟨i, hi, rfl⟩ := he
  exact ⟨_, _, rfl, Nat.mod_lt _ (by norm_num), Nat.mod_lt _ (by norm_num)⟩

/-- While the terminal flag is set, `on_game_state` is a no-op. -/
theorem on_game_state_noop (k : Nat) (bot : BotPlayer) (data : GameState)
    (hgo : bot.game_over = true) :
    on_game_state k bot data = Except.ok (bot, []) := by
  simp [on_game_state, hgo]

/-- A successful cell lookup implies the board list is non-empty (hence
truthy). -/
theorem cellLookup_ok_not_empty (board : List (List Cell)) (r c : Nat)
    (cell : Cell) (h : cellLookup board r c = Except.ok cell) :
    board.isEmpty = false := by
  cases board with
  | nil => simp [cellLookup] at h
  | cons _ _ => rfl

/-- C6: for every `gameState` payload in which `boardState` or `boardConfig`
is absent or falsy, `make_random_move` emits nothing and raises no error. -/
theorem C6_missing_board_or_config_noop (k : Nat) (gs : GameState)
    (h : truthyBoard gs.boardState = false ∨ truthyConfig gs.boardConfig = false) :
    make_random_move k gs = Except.ok [] := by
  obtain ⟨bs, bc⟩ := gs
  cases bs with
  | none => rfl
  | some board =>
    cases bc with
    | none => rfl
    | some config =>
      simp only [truthyBoard, truthyConfig] at h
      rcases h with h | h
      · have hb : board.isEmpty = true := by simpa using h
        simp [make_random_move, hb]
      · simp [make_random_move, h]

/-- C6 witness: a payload with no `boardState` field. -/
theorem C6_witness :
    make_random_move 0 ⟨none, some ⟨some 8, some 8, false⟩⟩ = Except.ok [] :=
  C6_missing_board_or_config_noop 0 ⟨none, some ⟨some 8, some 8, false⟩⟩ (Or.inl rfl)

/-- C7: if every cell within the config bounds exists and is marked
revealed, `make_random_move` emits no reveal, and `on_game_state` returns
the bot state unchanged with no emission. -/
theorem C7_all_revealed_frame (k : Nat) (bot : BotPlayer)
    (board : List (List Cell)) (config : BoardConfig)
    (hall : allRevealedWithin board (config.rows?.getD 8) (config.cols?.getD 8) = true) :
    make_random_move k ⟨some board, some config⟩ = Except.ok []
      ∧ on_game_state k bot ⟨some board, some config⟩ = Except.ok (bot, []) := by
  have hmm : make_random_move k ⟨some board, some config⟩ = Except.ok [] := by
    cases hb : board.isEmpty with
    | true => simp [make_random_move, hb]
    | false =>
      cases hc : config.truthy with
      | false => simp [make_random_move, hc]
      | true =>
        have hcov : coversBounds board (config.rows?.getD 8) (config.cols?.getD 8) = true := by
          unfold coversBounds
          unfold allRevealedWithin at hall
          rw [List.all_eq_true] at hall ⊢
          intro r hr
          have hall' := hall r hr
          rw [List.all_eq_true] at hall' ⊢
          intro c hcm
          have h2 := hall' c hcm
          cases hcl : cellLookup board r c with
          | ok cell => simp [hcl]
          | error e => rw [hcl] at h2; simp at h2
        obtain ⟨out, hout, hmem, hcomp⟩ :=
          unrevealedCells_ok board (config.rows?.getD 8) (config.cols?.getD 8) hcov
        have hnil : out = [] := by
          cases out with
          | nil => rfl
          | cons p ps =>
            exfalso
            obtain ⟨hr, hc2, cell, hcl, hrev⟩ := hmem p (List.mem_cons_self p ps)
            unfold allRevealedWithin at hall
            rw [List.all_eq_true] at hall
            have h3 := hall p.1 (List.mem_range.mpr hr)
            rw [List.all_eq_true] at h3
            have h4 := h3 p.2 (List.mem_range.mpr hc2)
            rw [hcl] at h4
            simp at h4
            simp [hrev] at h4
        rw [hnil] at hout
        exact make_random_move_eval k board config [] hb hc hout
  refine ⟨hmm, ?_⟩
  cases hgo : bot.game_over with
  | true => exact on_game_state_noop k bot _ hgo
  | false => simp [on_game_state, hgo, hmm]

/-- C7 witness: a fully revealed 1x1 board. -/
theorem C7_witness :
    make_random_move 0 ⟨some [[⟨some true⟩]], some ⟨some 1, some 1, false⟩⟩
        = Except.ok []
      ∧ on_game_state 0 (initBot 0) ⟨some [[⟨some true⟩]], some ⟨some 1, some 1, false⟩⟩
        = Except.ok (initBot 0, []) :=
  C7_all_revealed_frame 0 (initBot 0) [[⟨some true⟩]] ⟨some 1, some 1, false⟩ (by decide)

/-- C1: for a truthy snapshot whose board covers the config bounds (the
spec's board snapshot is a rows x cols grid) and which has at least one
in-bounds unrevealed cell, `make_random_move` emits exactly one state-driven
reveal whose coordinate is in bounds and addresses an unrevealed cell —
whatever `random.choice` draws. -/
theorem C1_reveal_in_bounds_unrevealed (k : Nat)
    (board : List (List Cell)) (config : BoardConfig)
    (hc : config.truthy = true)
    (hcov : coversBounds board (config.rows?.getD 8) (config.cols?.getD 8) = true)
    (hex : existsUnrevealed board (config.rows?.getD 8) (config.cols?.getD 8) = true) :
    ∃ r c, make_random_move k ⟨some board, some config⟩
        = Except.ok [Emit.reveal_tile c r]
      ∧ r < config.rows?.getD 8 ∧ c < config.cols?.getD 8
      ∧ ∃ cell, cellLookup board r c = Except.ok cell ∧ cell.isRevealed = false := by
  unfold existsUnrevealed at hex
  rw [List.any_eq_true] at hex
  obtain ⟨r0, hr0, hex⟩ := hex
  rw [List.any_eq_true] at hex
  obtain ⟨c0, hc0, hex⟩ := hex
  cases hcl0 : cellLookup board r0 c0 with
  | error e => rw [hcl0] at hex; simp at hex
  | ok cell0 =>
    rw [hcl0] at hex
    simp at hex
    have hb : board.isEmpty = false := cellLookup_ok_not_empty board r0 c0 cell0 hcl0
    obtain ⟨out, hout, hmem, hcomp⟩ :=
      unrevealedCells_ok board (config.rows?.getD 8) (config.cols?.getD 8) hcov
    have hin : (r0, c0) ∈ out :=
      hcomp r0 c0 (List.mem_range.mp hr0) (List.mem_range.mp hc0) cell0 hcl0 hex
    cases out with
    | nil => simp at hin
    | cons u us =>
      have hlt : k % (u :: us).length < (u :: us).length :=
        Nat.mod_lt _ (by simp)
      have hmemD : (u :: us).getD (k % (u :: us).length) u ∈ u :: us := by
        rw [List.getD_eq_getElem _ _ hlt]
        exact List.getElem_mem _
      obtain ⟨hr, hcb, cell, hcl, hrev⟩ := hmem _ hmemD
      exact ⟨_, _, make_random_move_eval k board config (u :: us) hb hc hout,
        hr, hcb, cell, hcl, hrev⟩

/-- C1 witness: a 1x2 board whose second cell is unrevealed; the chooser
index 3 still lands on an in-bounds unrevealed cell. -/
theorem C1_witness :
    ∃ r c, make_random_move 3
        ⟨some [[⟨some true⟩, ⟨none⟩]], some ⟨some 1, some 2, false⟩⟩
        = Except.ok [Emit.reveal_tile c r]
      ∧ r < 1 ∧ c < 2
      ∧ ∃ cell, cellLookup [[⟨some true⟩, ⟨none⟩]] r c = Except.ok cell
          ∧ cell.isRevealed = false :=
  C1_reveal_in_bounds_unrevealed 3 [[⟨some true⟩, ⟨none⟩]]
    ⟨some 1, some 2, false⟩ (by decide) (by decide) (by decide)

/-- C9 (amended): for a truthy snapshot, if at least one column is iterated
(`cols > 0`) and some VISITED row index (below `rows`) is missing from
`boardState` or has fewer columns than `cols`, `make_random_move` raises
`IndexError` instead of performing a no-op; the handler's "raises no error"
guarantee therefore needs the visited part of the board to cover the
config-declared bounds. -/
theorem C9_short_dims_raise (k : Nat) (board : List (List Cell))
    (config : BoardConfig)
    (hb : board.isEmpty = false) (hc : config.truthy = true)
    (hshort : dimsShort board (config.rows?.getD 8) (config.cols?.getD 8) = true) :
    make_random_move k ⟨some board, some config⟩
      = Except.error PyError.indexError := by
  have herr := unrevealedCells_error board (config.rows?.getD 8)
    (config.cols?.getD 8) hshort
  simp [make_random_move, hb, hc, herr]

/-- C9 witness: a one-row board with `rows = 2`: the iteration indexes the
missing row 1 and raises. -/
theorem C9_witness :
    make_random_move 0 ⟨some [[⟨some false⟩]], some ⟨some 2, some 1, false⟩⟩
      = Except.error PyError.indexError :=
  C9_short_dims_raise 0 [[⟨some false⟩]] ⟨some 2, some 1, false⟩
    rfl (by decide) (by decide)

/-- C9 counterexample to the claim as stated: `boardState = [[revealed], []]`
with `rows = cols = 1` has a row (index 1) with fewer columns than
`config.cols`, yet the handler raises no `IndexError` — row 1 is never
visited and the call is a plain no-op. -/
theorem C9_counterexample :
    (∃ row ∈ [[Cell.mk (some true)], ([] : List Cell)], row.length < 1)
      ∧ make_random_move 0
          ⟨some [[Cell.mk (some true)], []], some ⟨some 1, some 1, false⟩⟩
          = Except.ok [] := by
  constructor
  · exact ⟨[], by decide, by decide⟩
  · decide

/-- C5: every burst `revealTile` emitted by the play routine started from a
truthy `gameJoined` response carries the bot's username in the `playerId`
field (second payload slot), even though the handler has just stored the
server-assigned player id. -/
theorem C5_burst_uses_username (xy : Nat → Nat × Nat) (bot : BotPlayer)
    (r : Resp) (pid : String)
    (ht : r.truthy = true) (hp : r.playerId? = some pid) :
    ∃ bot', on_game_joined xy bot r = Except.ok (bot', play_game xy bot')
      ∧ bot'.player_id = some pid
      ∧ bot'.username = bot.username
      ∧ ∀ e ∈ play_game xy bot', ∃ x y,
          e = Emit.revealTileBurst bot'.game_id bot'.username x y := by
  refine ⟨{ bot with player_id := some pid }, ?_, rfl, rfl, ?_⟩
  · simp [on_game_joined, ht, hp]
  · intro e he
    obtain ⟨x, y, heq, _, _⟩ := play_game_mem xy _ e he
    exact ⟨x, y, heq⟩

/-- C5 witness: a join acknowledgment carrying player id "p1". -/
theorem C5_witness :
    ∃ bot', on_game_joined (fun _ => (0, 0)) (initBot 1) ⟨none, some "p1", false⟩
        = Except.ok (bot', play_game (fun _ => (0, 0)) bot')
      ∧ bot'.player_id = some "p1"
      ∧ bot'.username = (initBot 1).username
      ∧ ∀ e ∈ play_game (fun _ => (0, 0)) bot', ∃ x y,
          e = Emit.revealTileBurst bot'.game_id bot'.username x y :=
  C5_burst_uses_username (fun _ => (0, 0)) (initBot 1) ⟨none, some "p1", false⟩
    "p1" (by decide) rfl

/-- C8: a falsy `gameCreated` response leaves the bot state (in particular
its game and player ids) unchanged and emits nothing — no `joinGame`, no
further outbound events, no error. -/
theorem C8_falsy_created_stalls (bot : BotPlayer) (r : Resp)
    (hf : r.truthy = false) :
    on_game_created bot r = Except.ok (bot, []) := by
  simp [on_game_created, hf]

/-- C8 witness: the empty (falsy) response. -/
theorem C8_witness :
    on_game_created (initBot 0) ⟨none, none, false⟩ = Except.ok (initBot 0, []) :=
  C8_falsy_created_stalls (initBot 0) ⟨none, none, false⟩ rfl

/-- C10: a truthy `gameCreated` response without the `gameId` key makes
`on_game_created` raise `KeyError` before emitting `joinGame`, and a truthy
`gameJoined` response without the `playerId` key makes `on_game_joined`
raise `KeyError` before starting the play routine. -/
theorem C10_truthy_missing_key_raises (xy : Nat → Nat × Nat)
    (bot : BotPlayer) (r₁ r₂ : Resp)
    (h₁t : r₁.truthy = true) (h₁ : r₁.gameId? = none)
    (h₂t : r₂.truthy = true) (h₂ : r₂.playerId? = none) :
    on_game_created bot r₁ = Except.error PyError.keyError
      ∧ on_game_joined xy bot r₂ = Except.error PyError.keyError := by
  constructor
  · simp [on_game_created, h₁t, h₁]
  · simp [on_game_joined, h₂t, h₂]

/-- C10 witness: truthy responses (non-empty via other keys) lacking the
required key. -/
theorem C10_witness :
    on_game_created (initBot 0) ⟨none, none, true⟩ = Except.error PyError.keyError
      ∧ on_game_joined (fun _ => (0, 0)) (initBot 0) ⟨none, none, true⟩
        = Except.error PyError.keyError :=
  C10_truthy_missing_key_raises (fun _ => (0, 0)) (initBot 0)
    ⟨none, none, true⟩ ⟨none, none, true⟩ rfl rfl rfl rfl

/-- No handler ever clears the terminal flag: one step from a flagged state
stays flagged. -/
theorem step_game_over_true (xy : Nat → Nat × Nat) (bot : BotPlayer)
    (e : InEvent) (res : BotPlayer × List Emit) (hgo : bot.game_over = true)
    (h : step xy bot e = Except.ok res) : res.1.game_over = true := by
  cases e with
  | gameState k data =>
    simp only [step, on_game_state] at h
    split at h
    · rename_i hcond
      rw [hgo] at hcond
      simp at hcond
    · have h2 := Except.ok.inj h
      subst h2
      exact hgo
  | gameOver =>
    simp only [step, on_game_over] at h
    have h2 := Except.ok.inj h
    subst h2
    rfl
  | gameCreated r =>
    simp only [step, on_game_created] at h
    split at h
    · split at h
      · exact absurd h (by simp)
      · have h2 := Except.ok.inj h
        subst h2
        exact hgo
    · have h2 := Except.ok.inj h
      subst h2
      exact hgo
  | gameJoined r =>
    simp only [step, on_game_joined] at h
    split at h
    · split at h
      · exact absurd h (by simp)
      · have h2 := Except.ok.inj h
        subst h2
        exact hgo
    · have h2 := Except.ok.inj h
      subst h2
      exact hgo

/-- Processing any event sequence from a flagged state ends flagged. -/
theorem handleEvents_game_over_true (xy : Nat → Nat × Nat)
    (events : List InEvent) :
    ∀ (bot : BotPlayer) (res : BotPlayer × List Emit), bot.game_over = true →
      handleEvents xy bot events = Except.ok res → res.1.game_over = true := by
  induction events with
  | nil =>
    intro bot res hgo h
    have h2 := Except.ok.inj h
    rw [← h2]
    exact hgo
  | cons e es ih =>
    intro bot res hgo h
    unfold handleEvents at h
    cases hs : step xy bot e with
    | error err => rw [hs] at h; simp at h
    | ok out₁ =>
      rw [hs] at h
      simp only [okBind] at h
      cases hh : handleEvents xy out₁.1 es with
      | error err => rw [hh] at h; simp at h
      | ok out₂ =>
        rw [hh] at h
        simp only [okBind, pureEqOk] at h
        have h2 := Except.ok.inj h
        have hgo₁ := step_game_over_true xy bot e out₁ hgo hs
        have hgo₂ := ih out₁.1 out₂ hgo₁ hh
        rw [← h2]
        exact hgo₂

/-- C3: handling `gameOver` sets the terminal flag; the flag survives any
subsequent event sequence; and while it is set, a `gameState` event causes
no move emission (`on_game_state` is a no-op). -/
theorem C3_game_over_flag_monotonic (xy : Nat → Nat × Nat) (bot : BotPlayer)
    (events : List InEvent) (k : Nat) (data : GameState)
    (res : BotPlayer × List Emit)
    (h : handleEvents xy (on_game_over bot).1 events = Except.ok res) :
    (on_game_over bot).1.game_over = true
      ∧ res.1.game_over = true
      ∧ on_game_state k res.1 data = Except.ok (res.1, []) := by
  have h1 : (on_game_over bot).1.game_over = true := rfl
  have h2 := handleEvents_game_over_true xy events (on_game_over bot).1 res h1 h
  exact ⟨h1, h2, on_game_state_noop k res.1 data h2⟩

/-- C3 witness: after `gameOver`, a `gameState` event and another `gameOver`
leave the flag set and emit nothing. -/
theorem C3_witness :
    ((on_game_over (initBot 0)).1.game_over = true
      ∧ (⟨0, none, none, "Bot_0", true, true⟩ : BotPlayer).game_over = true
      ∧ on_game_state 0 (⟨0, none, none, "Bot_0", true, true⟩ : BotPlayer)
          ⟨some [[⟨none⟩]], some ⟨some 1, some 1, false⟩⟩
        = Except.ok ((⟨0, none, none, "Bot_0", true, true⟩ : BotPlayer), [])) :=
  C3_game_over_flag_monotonic (fun _ => (0, 0)) (initBot 0)
    [InEvent.gameState 0 ⟨some [[⟨none⟩]], some ⟨some 1, some 1, false⟩⟩,
     InEvent.gameOver]
    0 ⟨some [[⟨none⟩]], some ⟨some 1, some 1, false⟩⟩
    ((⟨0, none, none, "Bot_0", true, true⟩ : BotPlayer), []) (by decide)

/-- No event handler ever emits a `createGame` request. -/
theorem step_no_createGame (xy : Nat → Nat × Nat) (bot : BotPlayer)
    (e : InEvent) (res : BotPlayer × List Emit)
    (h : step xy bot e = Except.ok res) :
    res.2.countP Emit.isCreateGame = 0 := by
  cases e with
  | gameState k data =>
    simp only [step, on_game_state] at h
    split at h
    · cases hm : make_random_move k data with
      | error err => rw [hm] at h; simp at h
      | ok out =>
        rw [hm] at h
        simp only [okBind, pureEqOk] at h
        have h2 := Except.ok.inj h
        subst h2
        rcases make_random_move_shape k data out hm with rfl | ⟨x, y, rfl⟩
        · rfl
        · simp [List.countP_cons, Emit.isCreateGame]
    · have h2 := Except.ok.inj h
      subst h2
      rfl
  | gameOver =>
    simp only [step, on_game_over] at h
    have h2 := Except.ok.inj h
    subst h2
    rfl
  | gameCreated r =>
    simp only [step, on_game_created] at h
    split at h
    · split at h
      · exact absurd h (by simp)
      · have h2 := Except.ok.inj h
        subst h2
        simp [List.countP_cons, Emit.isCreateGame]
    · have h2 := Except.ok.inj h
      subst h2
      rfl
  | gameJoined r =>
    simp only [step, on_game_joined] at h
    split at h
    · split at h
      · exact absurd h (by simp)
      · have h2 := Except.ok.inj h
        subst h2
        rw [List.countP_eq_zero]
        intro a ha
        obtain ⟨x, y, rfl, _, _⟩ := play_game_mem xy _ a ha
        simp [Emit.isCreateGame]
    · have h2 := Except.ok.inj h
      subst h2
      rfl

/-- Event handling never emits `createGame`, over any event sequence. -/
theorem handleEvents_no_createGame (xy : Nat → Nat × Nat)
    (events : List InEvent) :
    ∀ (bot : BotPlayer) (res : BotPlayer × List Emit),
      handleEvents xy bot events = Except.ok res →
      res.2.countP Emit.isCreateGame = 0 := by
  induction events with
  | nil =>
    intro bot res h
    have h2 := Except.ok.inj h
    subst h2
    rfl
  | cons e es ih =>
    intro bot res h
    unfold handleEvents at h
    cases hs : step xy bot e with
    | error err => rw [hs] at h; simp at h
    | ok out₁ =>
      rw [hs] at h
      simp only [okBind] at h
      cases hh : handleEvents xy out₁.1 es with
      | error err => rw [hh] at h; simp at h
      | ok out₂ =>
        rw [hh] at h
        simp only [okBind, pureEqOk] at h
        have h2 := Except.ok.inj h
        subst h2
        have c₁ := step_no_createGame xy bot e out₁ hs
        have c₂ := ih out₁.1 out₂ hh
        simp [List.countP_append, c₁, c₂]

/-- C2: every successful run emits exactly one `createGame` request, and
the play-burst routine emits exactly 10 burst `revealTile` requests, each
with both coordinates in [0, 8). -/
theorem C2_one_create_ten_bursts (xy : Nat → Nat × Nat) (now botId : Nat)
    (events : List InEvent) (res : BotPlayer × List Emit) (bot : BotPlayer)
    (h : runBot xy now botId events = Except.ok res) :
    res.2.countP Emit.isCreateGame = 1
      ∧ (play_game xy bot).length = 10
      ∧ ∀ e ∈ play_game xy bot, ∃ x y,
          e = Emit.revealTileBurst bot.game_id bot.username x y
            ∧ x < 8 ∧ y < 8 := by
  refine ⟨?_, by simp [play_game], fun e he => play_game_mem xy bot e he⟩
  simp only [runBot] at h
  cases hh : handleEvents xy (create_and_join_game now (initBot botId)).1 events with
  | error err => rw [hh] at h; simp at h
  | ok rest =>
    rw [hh] at h
    simp only [okBind, pureEqOk] at h
    have h2 := Except.ok.inj h
    subst h2
    have c₂ := handleEvents_no_createGame xy events
      (create_and_join_game now (initBot botId)).1 rest hh
    simp [create_and_join_game, List.countP_append, List.countP_cons,
      Emit.isCreateGame, c₂]

/-- C2 witness: a run whose only inbound events are a created/joined pair. -/
theorem C2_witness :
    ((⟨0, some "g1", some "p1", "Bot_0", true, false⟩ : BotPlayer),
        [Emit.createGame "Bot_0", Emit.joinGame "g1" "Bot_0"]
          ++ List.replicate 10 (Emit.revealTileBurst (some "g1") "Bot_0" 0 0)).2.countP
        Emit.isCreateGame = 1
      ∧ (play_game (fun _ => (0, 0)) (initBot 5)).length = 10
      ∧ ∀ e ∈ play_game (fun _ => (0, 0)) (initBot 5), ∃ x y,
          e = Emit.revealTileBurst (initBot 5).game_id (initBot 5).username x y
            ∧ x < 8 ∧ y < 8 :=
  C2_one_create_ten_bursts (fun _ => (0, 0)) 7 0
    [InEvent.gameCreated ⟨some "g1", none, false⟩,
     InEvent.gameJoined ⟨none, some "p1", false⟩]
    ((⟨0, some "g1", some "p1", "Bot_0", true, false⟩ : BotPlayer),
      [Emit.createGame "Bot_0", Emit.joinGame "g1" "Bot_0"]
        ++ List.replicate 10 (Emit.revealTileBurst (some "g1") "Bot_0" 0 0))
    (initBot 5) (by decide)

/-- Any handler other than `on_game_created` leaves the stored game id
unchanged, and every burst it emits carries the current game id. -/
theorem step_preserves_game_id (xy : Nat → Nat × Nat) (bot : BotPlayer)
    (e : InEvent) (res : BotPlayer × List Emit)
    (hne : e.isGameCreated = false) (h : step xy bot e = Except.ok res) :
    res.1.game_id = bot.game_id
      ∧ ∀ g p x y, Emit.revealTileBurst g p x y ∈ res.2 → g = bot.game_id := by
  cases e with
  | gameCreated r => simp [InEvent.isGameCreated] at hne
  | gameOver =>
    simp only [step, on_game_over] at h
    have h2 := Except.ok.inj h
    subst h2
    exact ⟨rfl, by intro g p x y hg; simp at hg⟩
  | gameState k data =>
    simp only [step, on_game_state] at h
    split at h
    · cases hm : make_random_move k data with
      | error err => rw [hm] at h; simp at h
      | ok out =>
        rw [hm] at h
        simp only [okBind, pureEqOk] at h
        have h2 := Except.ok.inj h
        subst h2
        refine ⟨rfl, ?_⟩
        intro g p x y hg
        rcases make_random_move_shape k data out hm with rfl | ⟨x', y', rfl⟩
        · simp at hg
        · simp at hg
    · have h2 := Except.ok.inj h
      subst h2
      exact ⟨rfl, by intro g p x y hg; simp at hg⟩
  | gameJoined r =>
    simp only [step, on_game_joined] at h
    split at h
    · split at h
      · exact absurd h (by simp)
      · have h2 := Except.ok.inj h
        subst h2
        refine ⟨rfl, ?_⟩
        intro g p x y hg
        obtain ⟨x', y', heq, _, _⟩ := play_game_mem xy _ _ hg
        exact (Emit.revealTileBurst.inj heq).1
    · have h2 := Except.ok.inj h
      subst h2
      exact ⟨rfl, by intro g p x y hg; simp at hg⟩

/-- Over any `gameCreated`-free event sequence, the stored game id is
invariant and every emitted burst carries it. -/
theorem handleEvents_preserves_game_id (xy : Nat → Nat × Nat)
    (events : List InEvent) :
    ∀ (bot : BotPlayer) (res : BotPlayer × List Emit),
      (∀ e ∈ events, e.isGameCreated = false) →
      handleEvents xy bot events = Except.ok res →
      res.1.game_id = bot.game_id
        ∧ ∀ g p x y, Emit.revealTileBurst g p x y ∈ res.2 → g = bot.game_id := by
  induction events with
  | nil =>
    intro bot res _ h
    have h2 := Except.ok.inj h
    subst h2
    exact ⟨rfl, by intro g p x y hg; simp at hg⟩
  | cons e es ih =>
    intro bot res hnc h
    unfold handleEvents at h
    cases hs : step xy bot e with
    | error err => rw [hs] at h; simp at h
    | ok out₁ =>
      rw [hs] at h
      simp only [okBind] at h
      cases hh : handleEvents xy out₁.1 es with
      | error err => rw [hh] at h; simp at h
      | ok out₂ =>
        rw [hh] at h
        simp only [okBind, pureEqOk] at h
        have h2 := Except.ok.inj h
        subst h2
        have p₁ := step_preserves_game_id xy bot e out₁
          (hnc e (List.mem_cons_self e es)) hs
        have p₂ := ih out₁.1 out₂
          (fun e' he' => hnc e' (List.mem_cons_of_mem _ he')) hh
        constructor
        · rw [p₂.1, p₁.1]
        · intro g p x y hg
          rcases List.mem_append.mp hg with hg | hg
          · exact p₁.2 g p x y hg
          · exact (p₂.2 g p x y hg).trans p₁.1

/-- Peeling one successful handler step off `handleEvents`. -/
theorem handleEvents_cons_ok (xy : Nat → Nat × Nat) (bot bot' : BotPlayer)
    (e : InEvent) (es : List InEvent) (out : List Emit)
    (hstep : step xy bot e = Except.ok (bot', out)) :
    handleEvents xy bot (e :: es)
      = handleEvents xy bot' es >>= fun o => pure (o.1, out ++ o.2) := by
  conv_lhs => rw [handleEvents]
  rw [hstep, okBind]

/-- Destructing a successful `Except` bind. -/
theorem bind_ok_destruct {α β : Type} (x : Except PyError α)
    (f : α → Except PyError β) (b : β) (h : (x >>= f) = Except.ok b) :
    ∃ a, x = Except.ok a ∧ f a = Except.ok b := by
  cases x with
  | error e => simp at h
  | ok a => exact ⟨a, rfl, h⟩

/-- C4: after `create_and_join_game` the stored game id is the local
placeholder; the first truthy `gameCreated` response replaces it with the
server-confirmed id, and (provided no further `gameCreated` event arrives)
it never changes again: every burst move emitted from then on carries the
confirmed id, not the placeholder.  In addition — as the spec observes —
there is a code path (a `gameJoined` acknowledgment arriving with no
`gameCreated` before it) on which the bot emits burst moves that carry the
placeholder id before any confirmation. -/
theorem C4_game_id_transition (xy : Nat → Nat × Nat) (now botId : Nat)
    (gid pid : String) (r₁ r₂ : Resp) (rest : List InEvent)
    (h₁t : r₁.truthy = true) (h₁ : r₁.gameId? = some gid)
    (h₂t : r₂.truthy = true) (h₂ : r₂.playerId? = some pid)
    (hgid : gid ≠ placeholderId botId now)
    (hrest : ∀ e ∈ rest, e.isGameCreated = false) :
    (create_and_join_game now (initBot botId)).1.game_id
        = some (placeholderId botId now)
      ∧ (∀ res, runBot xy now botId
            (InEvent.gameCreated r₁ :: InEvent.gameJoined r₂ :: rest)
            = Except.ok res →
          res.1.game_id = some gid
            ∧ ∀ g p x y, Emit.revealTileBurst g p x y ∈ res.2 →
                g = some gid ∧ g ≠ some (placeholderId botId now))
      ∧ (∃ res, runBot xy now botId [InEvent.gameJoined r₂] = Except.ok res
          ∧ ∃ p x y,
              Emit.revealTileBurst (some (placeholderId botId now)) p x y
                ∈ res.2) := by
  have hs1 : ∀ b : BotPlayer, step xy b (InEvent.gameCreated r₁)
      = Except.ok ({b with game_id := some gid},
          [Emit.joinGame gid b.username]) := by
    intro b
    simp [step, on_game_created, h₁t, h₁]
  have hs2 : ∀ b : BotPlayer, step xy b (InEvent.gameJoined r₂)
      = Except.ok ({b with player_id := some pid},
          play_game xy {b with player_id := some pid}) := by
    intro b
    simp [step, on_game_joined, h₂t, h₂]
  refine ⟨rfl, ?_, ?_⟩
  · intro res h
    simp only [runBot] at h
    rw [handleEvents_cons_ok xy _ _ _ _ _ (hs1 _),
      handleEvents_cons_ok xy _ _ _ _ _ (hs2 _)] at h
    obtain ⟨r', hr', h⟩ := bind_ok_destruct _ _ _ h
    obtain ⟨r'', hr'', hr'⟩ := bind_ok_destruct _ _ _ hr'
    obtain ⟨o, ho, hr''⟩ := bind_ok_destruct _ _ _ hr''
    simp only [pureEqOk] at h hr' hr''
    have hres := Except.ok.inj h
    have hr'e := Except.ok.inj hr'
    have hr''e := Except.ok.inj hr''
    subst hres
    subst hr'e
    subst hr''e
    have p := handleEvents_preserves_game_id xy rest _ o hrest ho
    constructor
    · exact p.1.trans rfl
    · intro g pl x y hg
      have hgval : g = some gid := by
        rcases List.mem_append.mp hg with hg | hg
        · simp [create_and_join_game] at hg
        · rcases List.mem_append.mp hg with hg | hg
          · simp at hg
          · rcases List.mem_append.mp hg with hg | hg
            · obtain ⟨x', y', heq, _, _⟩ := play_game_mem xy _ _ hg
              exact (Emit.revealTileBurst.inj heq).1
            · exact (p.2 g pl x y hg).trans rfl
      refine ⟨hgval, ?_⟩
      rw [hgval]
      intro hcontra
      exact hgid (Option.some.inj hcontra)
  · refine ⟨({(create_and_join_game now (initBot botId)).1 with
        player_id := some pid},
        (create_and_join_game now (initBot botId)).2
          ++ (play_game xy
              {(create_and_join_game now (initBot botId)).1 with
                player_id := some pid} ++ [])), ?_, ?_⟩
    · simp only [runBot]
      rw [handleEvents_cons_ok xy _ _ _ _ _ (hs2 _)]
      simp only [handleEvents, okBind, pureEqOk]
    · refine ⟨(initBot botId).username, (xy 0).1 % 8, (xy 0).2 % 8, ?_⟩
      apply List.mem_append.mpr
      right
      apply List.mem_append.mpr
      left
      apply List.mem_map.mpr
      exact ⟨0, List.mem_range.mpr (by norm_num), rfl⟩

/-- C4 witness: bot 0 at time 7, server id "g1"; plus the placeholder-id
burst path with no prior `gameCreated`. -/
theorem C4_witness :
    ((create_and_join_game 7 (initBot 0)).1.game_id = some (placeholderId 0 7)
      ∧ (∀ res, runBot (fun _ => (0, 0)) 7 0
            [InEvent.gameCreated ⟨some "g1", none, false⟩,
             InEvent.gameJoined ⟨none, some "p1", false⟩]
            = Except.ok res →
          res.1.game_id = some "g1"
            ∧ ∀ g p x y, Emit.revealTileBurst g p x y ∈ res.2 →
                g = some "g1" ∧ g ≠ some (placeholderId 0 7))
      ∧ (∃ res, runBot (fun _ => (0, 0)) 7 0
            [InEvent.gameJoined ⟨none, some "p1", false⟩] = Except.ok res
          ∧ ∃ p x y,
              Emit.revealTileBurst (some (placeholderId 0 7)) p x y ∈ res.2)) :=
  C4_game_id_transition (fun _ => (0, 0)) 7 0 "g1" "p1"
    ⟨some "g1", none, false⟩ ⟨none, some "p1", false⟩ []
    rfl rfl rfl rfl (by decide) (fun e he => absurd he (List.not_mem_nil e))

/-- C1 counterexample to the claim as stated: both fields are present and
the cell (0,0) within the config bounds (rows = 2, cols = 1) is unrevealed,
yet the board does not cover those bounds (row 1 is missing), so
`make_random_move` raises `IndexError` instead of emitting exactly one
reveal. -/
theorem C1_counterexample :
    make_random_move 0
        ⟨some [[Cell.mk (none : Option Bool)]], some ⟨some 2, some 1, false⟩⟩
        = Except.error PyError.indexError
      ∧ (∃ cell, cellLookup [[Cell.mk (none : Option Bool)]] 0 0
          = Except.ok cell ∧ cell.isRevealed = false) := by
  constructor
  · decide
  · exact ⟨Cell.mk none, rfl, rfl⟩
